import Mathlib

/-!
Shallow embedding of the `purge-server` WebSocket game server
(`src/src/server.ts`, first document: `UnifiedServer` with `GameManager`,
`ConnectionManager`, `MessageHandler`, `BattleManager`; plus the
`src/unnamed/part_000` variant's `GameManager.canStartGame` and the
`src/server.js` `GameRoom` handlers where claims cite them).

JavaScript `Map`s are modelled as association lists whose operations
reproduce `Map` insertion-order semantics; `Set`s as duplicate-free lists
in insertion order.  `Date.now()` is passed in explicitly as `now : Nat`.
Socket sends are modelled as an outbound list of `(recipient, message)`
pairs; every registered connection is treated as OPEN.
-/

set_option maxHeartbeats 1000000

namespace PurgeServer

/-- Association-list analogue of JavaScript `Map.prototype.set`: an existing
key keeps its position and receives the new value; a new key is appended at
the end, matching `Map` insertion-order iteration. -/
def setKey {κ α : Type} [DecidableEq κ] (k : κ) (v : α) : List (κ × α) → List (κ × α)
  | [] => [(k, v)]
  | (k', v') :: rest => if k' = k then (k, v) :: rest else (k', v') :: setKey k v rest

/-- Association-list analogue of JavaScript `Map.prototype.get`. -/
def lookupKey {κ α : Type} [DecidableEq κ] (k : κ) : List (κ × α) → Option α
  | [] => none
  | (k', v) :: rest => if k' = k then some v else lookupKey k rest

/-- Association-list analogue of JavaScript `Map.prototype.delete`. -/
def eraseKey {κ α : Type} [DecidableEq κ] (k : κ) (l : List (κ × α)) : List (κ × α) :=
  l.filter (fun p => p.1 ≠ k)

/-- Analogue of JavaScript `Set.prototype.add`: no-op on a member, append at
the end otherwise. -/
def addMem (x : String) (l : List String) : List String :=
  if x ∈ l then l else l ++ [x]

/-- Analogue of JavaScript `Set.prototype.delete`. -/
def eraseMem (x : String) (l : List String) : List String :=
  l.filter (fun y => y ≠ x)

/-- Keep a peer when broadcasting with an optional excluded peer id, as in
`if (!excludePlayerId || conn.playerId !== excludePlayerId)`. -/
def keepPeer (exclude : Option String) (c : String) : Bool :=
  match exclude with
  | none => true
  | some e => c ≠ e

-- ===========================================================================
-- Arena (Phase 3) data model, from src/src/server.ts
-- ===========================================================================

/-- The four arena phases of a `GameSession` (`'waiting' | 'countdown' |
'active' | 'ended'`). -/
inductive Phase
  | waiting
  | countdown
  | active
  | ended
deriving DecidableEq, Repr

/-- String form of a phase, used in the `Game already in phase: ...` reason. -/
def Phase.str : Phase → String
  | .waiting => "waiting"
  | .countdown => "countdown"
  | .active => "active"
  | .ended => "ended"

/-- Numeric index of a phase in the order waiting < countdown < active < ended. -/
def Phase.idx : Phase → Nat
  | .waiting => 0
  | .countdown => 1
  | .active => 2
  | .ended => 3

/-- The `PlayerState` interface.  Coordinates are JS numbers used only as
opaque payload by the server; the server reads only `alive` and `id`. -/
structure PlayerState where
  id : String
  x : Int
  y : Int
  hp : Int
  maxHp : Int
  alive : Bool
  hasShield : Bool
  hasSpeed : Bool
  name : String
  color : String
  radius : Int
  vx : Int
  vy : Int
deriving DecidableEq, Repr

/-- The heartbeat-relevant part of the `ClientConnection` record (the
transport handle is modelled away; all registered connections count as OPEN). -/
structure ClientConnection where
  lastHeartbeat : Nat
  isAlive : Bool
deriving DecidableEq, Repr

/-- The `GameSession` record of one arena room. -/
structure GameSession where
  gameId : Nat
  phase : Phase
  countdownStartTime : Option Nat
  countdownDuration : Nat
  players : List (String × PlayerState)
  readyPlayers : List String
  startTime : Option Nat
  winner : Option String
deriving DecidableEq, Repr

/-- Outbound arena envelopes emitted by the server. -/
inductive ArenaMsg
  | gameStateUpdate (phase : Phase) (countdownStartTime : Option Nat)
      (countdownDuration : Nat) (readyPlayers : Nat) (totalPlayers : Nat)
  | playerConnected (playerId : String)
  | playerDisconnected (playerId : String)
  | update (playerId : String) (data : PlayerState)
  | eliminated (playerId : String)
  | winner (winnerId : Option String)
  | error (message : String)
  | sync (players : List PlayerState)
  | heartbeatAck (timestamp : Nat)
deriving DecidableEq, Repr

/-- The state of one arena room of the `UnifiedServer`: the `GameManager`
entry for its game id, the `ConnectionManager` entries for that game, and
the pending-timer flags (`gameTimers` countdown entry, the 1 s auto-start
`setTimeout` of `checkAutoStart`, and the `gameDeadlineTimers` entry). -/
structure ArenaState where
  game : Option GameSession
  conns : List (String × ClientConnection)
  countdownTimerArmed : Bool
  autoStartPending : Bool
  deadlineTimerArmed : Bool
deriving DecidableEq, Repr

/-- A fresh `GameSession` as built by `GameManager.getOrCreateGame`. -/
def freshGame (gameId : Nat) : GameSession :=
  { gameId := gameId
    phase := .waiting
    countdownStartTime := none
    countdownDuration := 15000
    players := []
    readyPlayers := []
    startTime := none
    winner := none }

/-- `ConnectionManager.broadcastToGame`: send to every OPEN connection of the
game whose peer differs from the excluded one. -/
def broadcastToGame (conns : List (String × ClientConnection)) (msg : ArenaMsg)
    (exclude : Option String) : List (String × ArenaMsg) :=
  (conns.filter (fun c => keepPeer exclude c.1)).map (fun c => (c.1, msg))

/-- `ConnectionManager.sendToPlayer`: best-effort single send. -/
def sendToPlayer (conns : List (String × ClientConnection)) (pid : String)
    (msg : ArenaMsg) : List (String × ArenaMsg) :=
  match lookupKey pid conns with
  | some _ => [(pid, msg)]
  | none => []

/-- `ConnectionManager.updateHeartbeat`: touch `lastHeartbeat` and `isAlive`. -/
def updateHeartbeat (pid : String) (now : Nat)
    (conns : List (String × ClientConnection)) : List (String × ClientConnection) :=
  match lookupKey pid conns with
  | some _ => setKey pid { lastHeartbeat := now, isAlive := true } conns
  | none => conns

namespace GameManager

/-- `GameManager.getOrCreateGame` restricted to one room. -/
def getOrCreateGame (gid : Nat) (g? : Option GameSession) : GameSession :=
  g?.getD (freshGame gid)

/-- `GameManager.addPlayer`: creates the session if absent but does NOT
insert the peer into `players` (the source only logs). -/
def addPlayer (gid : Nat) (_pid : String) (g? : Option GameSession) : Option GameSession :=
  some (getOrCreateGame gid g?)

/-- `GameManager.updatePlayerState`: store the client-supplied state. -/
def updatePlayerState (pid : String) (s : PlayerState)
    (g? : Option GameSession) : Option GameSession :=
  match g? with
  | none => none
  | some g => some { g with players := setKey pid s g.players }

/-- `GameManager.canStartGame` of the `UnifiedServer` variant. -/
def canStartGame (g? : Option GameSession) : Bool × String × Nat :=
  match g? with
  | none => (false, "Game not found", 0)
  | some g =>
    let readyCount := g.readyPlayers.length
    if g.phase ≠ Phase.waiting then
      (false, "Game already in phase: " ++ g.phase.str, readyCount)
    else if readyCount = 0 then
      (false, "No players ready", 0)
    else if readyCount = 1 then
      (true, "Auto-winner (1 player ready)", 1)
    else
      (true, toString readyCount ++ " players ready for battle", readyCount)

end GameManager

/-- Result record of `GameManager.startGame`. -/
structure StartResult where
  success : Bool
  message : String
  gameState : Option GameSession
deriving DecidableEq, Repr

namespace GameManager

/-- `GameManager.startGame`: auto-winner at one ready peer, countdown start
(arming the countdown timer) at two or more. -/
def startGame (st : ArenaState) (now : Nat) : ArenaState × StartResult :=
  match st.game with
  | none => (st, { success := false, message := "Game not found", gameState := none })
  | some g =>
    let r := canStartGame (some g)
    if r.1 = false then
      (st, { success := false, message := r.2.1, gameState := none })
    else if r.2.2 = 1 then
      let g' := { g with phase := Phase.ended, winner := g.readyPlayers.head? }
      ({ st with game := some g' },
       { success := true, message := "Auto-winner declared", gameState := some g' })
    else
      let g' := { g with phase := Phase.countdown, countdownStartTime := some now }
      ({ st with game := some g', countdownTimerArmed := true },
       { success := true, message := "Countdown started", gameState := some g' })

/-- `GameManager.removePlayer`: drop the peer from roster and ready set,
deleting the session (and clearing its countdown timer) when the roster
becomes empty. -/
def removePlayer (pid : String) (st : ArenaState) : ArenaState :=
  match st.game with
  | none => st
  | some g =>
    let g' := { g with players := eraseKey pid g.players
                       readyPlayers := eraseMem pid g.readyPlayers }
    if g'.players.length = 0 then
      { st with game := none, countdownTimerArmed := false }
    else
      { st with game := some g' }

/-- `GameManager.declareWinner`: force the ended phase, record the winner,
and clear the countdown timer. -/
def declareWinner (wid : String) (st : ArenaState) : ArenaState :=
  match st.game with
  | none => st
  | some g =>
    { st with game := some { g with phase := Phase.ended, winner := some wid }
              countdownTimerArmed := false }

end GameManager

/-- `UnifiedServer.broadcastGameState` (also the game-state-change callback):
broadcast the summarized session to every connection of the game. -/
def broadcastGameState (st : ArenaState) : List (String × ArenaMsg) :=
  match st.game with
  | none => []
  | some g =>
    broadcastToGame st.conns
      (ArenaMsg.gameStateUpdate g.phase g.countdownStartTime g.countdownDuration
        g.readyPlayers.length st.conns.length) none

namespace GameManager

/-- `GameManager.markPlayerReady`: get-or-create, add to `readyPlayers`, then
fire the game-state-change callback (a `broadcastGameState`). -/
def markPlayerReady (gid : Nat) (pid : String) (st : ArenaState) :
    ArenaState × List (String × ArenaMsg) :=
  let g := getOrCreateGame gid st.game
  let g' := { g with readyPlayers := addMem pid g.readyPlayers }
  let st' := { st with game := some g' }
  (st', broadcastGameState st')

/-- The countdown-timer callback `GameManager.transitionToActive`: move to the
active phase, stamp `startTime`, and fire the game-state-change callback. -/
def transitionToActive (st : ArenaState) (now : Nat) :
    ArenaState × List (String × ArenaMsg) :=
  match st.game with
  | none => (st, [])
  | some g =>
    let g' := { g with phase := Phase.active, startTime := some now }
    let st' := { st with game := some g' }
    (st', broadcastGameState st')

end GameManager

namespace MessageHandler

/-- `MessageHandler.handleHeartbeat`: touch the connection; nothing is sent. -/
def handleHeartbeat (pid : String) (now : Nat) (st : ArenaState) :
    ArenaState × List (String × ArenaMsg) :=
  ({ st with conns := updateHeartbeat pid now st.conns }, [])

/-- `MessageHandler.handleMarkReady`: mark ready (which itself broadcasts via
the callback), then broadcast the game state again. -/
def handleMarkReady (gid : Nat) (pid : String) (st : ArenaState) :
    ArenaState × List (String × ArenaMsg) :=
  let p := GameManager.markPlayerReady gid pid st
  (p.1, p.2 ++ broadcastGameState p.1)

/-- `MessageHandler.handleStartGame`: attempt the start; on success broadcast
state (plus the `winner` envelope on the auto-winner path), on failure reply
to the requester alone with an `error` envelope. -/
def handleStartGame (pid : String) (now : Nat) (st : ArenaState) :
    ArenaState × List (String × ArenaMsg) :=
  let p := GameManager.startGame st now
  let st' := p.1
  let r := p.2
  if r.success = true ∧ r.gameState.isSome = true then
    let out1 := broadcastGameState st'
    let out2 :=
      match r.gameState with
      | some g =>
        if g.phase = Phase.ended then
          broadcastToGame st'.conns (ArenaMsg.winner g.winner) none
        else []
      | none => []
    (st', out1 ++ out2)
  else
    (st', sendToPlayer st'.conns pid (ArenaMsg.error r.message))

/-- `MessageHandler.handlePlayerUpdate`: store the peer's state and rebroadcast
it to every other connection of the game. -/
def handlePlayerUpdate (pid : String) (s : PlayerState) (st : ArenaState) :
    ArenaState × List (String × ArenaMsg) :=
  let st' := { st with game := GameManager.updatePlayerState pid s st.game }
  (st', broadcastToGame st'.conns (ArenaMsg.update pid s) (some pid))

/-- `MessageHandler.handleEliminated`: broadcast the `eliminated` envelope,
then, in the active phase, run the winner check over the STORED `alive`
flags.  The stored `PlayerState` of the sender is not modified. -/
def handleEliminated (pid : String) (st : ArenaState) :
    ArenaState × List (String × ArenaMsg) :=
  let out1 := broadcastToGame st.conns (ArenaMsg.eliminated pid) none
  match st.game with
  | none => (st, out1)
  | some g =>
    if g.phase = Phase.active then
      let alivePlayers := (g.players.map Prod.snd).filter (fun p => p.alive)
      if alivePlayers.length ≤ 1 ∧ 0 < alivePlayers.length then
        match alivePlayers.head? with
        | some w =>
          let st' := GameManager.declareWinner w.id st
          (st', out1 ++ broadcastToGame st'.conns (ArenaMsg.winner (some w.id)) none)
        | none => (st, out1)
      else (st, out1)
    else (st, out1)

/-- `MessageHandler.handleWinner`: unconditionally declare the given winner
and broadcast it. -/
def handleWinner (wid : String) (st : ArenaState) :
    ArenaState × List (String × ArenaMsg) :=
  let st' := GameManager.declareWinner wid st
  (st', broadcastToGame st'.conns (ArenaMsg.winner (some wid)) none)

end MessageHandler

namespace UnifiedServer

/-- `UnifiedServer.checkAutoStart`: when `canStartGame` holds, schedule the
1 s delayed `startGame` (modelled as arming the auto-start flag). -/
def checkAutoStart (st : ArenaState) : ArenaState :=
  let r := GameManager.canStartGame st.game
  if r.1 = true then { st with autoStartPending := true } else st

/-- `UnifiedServer.startDeadlineMonitor`: rearm (replacing any prior deadline
timer); a past deadline triggers `checkAutoStart` immediately. -/
def startDeadlineMonitor (deadline now : Nat) (st : ArenaState) : ArenaState :=
  let st0 := { st with deadlineTimerArmed := false }
  if deadline ≤ now then checkAutoStart st0
  else { st0 with deadlineTimerArmed := true }

/-- `UnifiedServer.sendInitialGameState`: the private state dump to a freshly
connected socket (`game_state_update`, plus `sync` when the roster is
non-empty). -/
def initialStateMsgs (pid : String) (st : ArenaState) : List (String × ArenaMsg) :=
  match st.game with
  | none => []
  | some g =>
    [(pid, ArenaMsg.gameStateUpdate g.phase g.countdownStartTime
        g.countdownDuration g.readyPlayers.length st.conns.length)]
    ++ (if 0 < g.players.length then [(pid, ArenaMsg.sync (g.players.map Prod.snd))] else [])

/-- Events applied to one arena room: client envelopes, socket lifecycle, and
timer firings. -/
inductive AEvent
  | connect (pid : String)
  | disconnect (pid : String)
  | msgHeartbeat (pid : String)
  | msgMarkReady (pid : String)
  | msgStartGame (pid : String)
  | msgUpdate (pid : String) (data : PlayerState)
  | msgEliminated (pid : String)
  | msgWinner (winnerId : String)
  | msgSetDeadline (deadline : Nat)
  | countdownFire
  | autoStartFire
  | deadlineFire
deriving DecidableEq, Repr

/-- One step of the `UnifiedServer` on a single arena room: dispatches socket
lifecycle events (`handlePhase3Connection` and its close handler), client
envelopes (`handlePhase3Message`), and timer callbacks.  Timer-fire events
are no-ops when the corresponding timer is not armed. -/
def step (gid : Nat) (now : Nat) (e : AEvent) (st : ArenaState) :
    ArenaState × List (String × ArenaMsg) :=
  match e with
  | .connect pid =>
    let st1 := { st with conns := setKey pid { lastHeartbeat := now, isAlive := true } st.conns
                         game := GameManager.addPlayer gid pid st.game }
    (st1, initialStateMsgs pid st1
          ++ broadcastToGame st1.conns (ArenaMsg.playerConnected pid) (some pid))
  | .disconnect pid =>
    let st1 := { st with conns := eraseKey pid st.conns }
    let st2 := GameManager.removePlayer pid st1
    (st2, broadcastToGame st2.conns (ArenaMsg.playerDisconnected pid) none)
  | .msgHeartbeat pid => MessageHandler.handleHeartbeat pid now st
  | .msgMarkReady pid =>
    let p := MessageHandler.handleMarkReady gid pid st
    (checkAutoStart p.1, p.2)
  | .msgStartGame pid => MessageHandler.handleStartGame pid now st
  | .msgUpdate pid data => MessageHandler.handlePlayerUpdate pid data st
  | .msgEliminated pid => MessageHandler.handleEliminated pid st
  | .msgWinner wid => MessageHandler.handleWinner wid st
  | .msgSetDeadline deadline => (startDeadlineMonitor deadline now st, [])
  | .countdownFire =>
    if st.countdownTimerArmed = true then
      GameManager.transitionToActive { st with countdownTimerArmed := false } now
    else (st, [])
  | .autoStartFire =>
    if st.autoStartPending = true then
      let p := GameManager.startGame { st with autoStartPending := false } now
      (p.1, if p.2.success = true then broadcastGameState p.1 else [])
    else (st, [])
  | .deadlineFire =>
    if st.deadlineTimerArmed = true then
      (checkAutoStart { st with deadlineTimerArmed := false }, [])
    else (st, [])

end UnifiedServer

-- ===========================================================================
-- part_000 variant (src/unnamed/part_000): GameManager.canStartGame
-- ===========================================================================

namespace Part000

/-- `GameManager.canStartGame` of the `src/unnamed/part_000` variant: the
start condition there is simply `readyCount >= 2`. -/
def canStartGame (g? : Option GameSession) : Bool × Nat :=
  match g? with
  | none => (false, 0)
  | some g => (decide (2 ≤ g.readyPlayers.length), g.readyPlayers.length)

end Part000

-- ===========================================================================
-- Battle rooms (BattleManager, src/src/server.ts first document)
-- ===========================================================================

/-- Battle statuses (`'waiting' | 'ready' | 'in_progress' | 'ended'`). -/
inductive BStatus
  | waiting
  | ready
  | inProgress
  | ended
deriving DecidableEq, Repr

/-- The `BattleMove` record. -/
structure BattleMove where
  playerId : String
  move : String
  round : Nat
  submittedAt : Nat
deriving DecidableEq, Repr

/-- The `BattleSession` record.  `connections` keeps only the peer ids of the
sockets (all modelled OPEN), in `Map` insertion order. -/
structure BattleSession where
  challengeId : String
  players : List String
  connections : List String
  moves : List (Nat × List BattleMove)
  status : BStatus
  winner : Option String
  createdAt : Nat
deriving DecidableEq, Repr

/-- Outbound battle envelopes. `playerJoined` carries the challenge id only on
the copy sent to the joiner itself. -/
inductive BattleMsg
  | playerJoined (playerId : String) (playersCount : Nat) (challengeId : Option String)
  | gameReady (challengeId : String) (players : List String)
  | opponentMoved (playerId : String)
  | roundComplete (round : Nat) (moves : List (String × String))
  | gameEnded (winner : Option String) (challengeId : String)
  | opponentLeft (playerId : String)
deriving DecidableEq, Repr

/-- State of one battle room plus the pending one-shot timers created by the
source's `setTimeout` calls (ready → in_progress hold, 30 s cleanup). -/
structure BattleState where
  battle : Option BattleSession
  readyTimerArmed : Bool
  cleanupTimerArmed : Bool
deriving DecidableEq, Repr

/-- `BattleManager.broadcastToBattle`: send to every connection of the battle
whose peer differs from the excluded one. -/
def broadcastToBattle (conns : List String) (msg : BattleMsg)
    (exclude : Option String) : List (String × BattleMsg) :=
  (conns.filter (fun c => keepPeer exclude c)).map (fun c => (c, msg))

namespace BattleManager

/-- `BattleManager.handleConnection`: get-or-create the battle, then
UNCONDITIONALLY insert the peer into `players` and `connections`; when the
size reaches 2 in the waiting status, move to ready and arm the 1 s hold. -/
def handleConnection (cid pid : String) (now : Nat) (bst : BattleState) :
    BattleState × List (String × BattleMsg) :=
  let battle := bst.battle.getD
    { challengeId := cid, players := [], connections := [], moves := []
      status := .waiting, winner := none, createdAt := now }
  let b1 := { battle with players := addMem pid battle.players
                          connections := addMem pid battle.connections }
  let out1 := [(pid, BattleMsg.playerJoined pid b1.players.length (some b1.challengeId))]
  let out2 := broadcastToBattle b1.connections
    (BattleMsg.playerJoined pid b1.players.length none) (some pid)
  if b1.players.length = 2 ∧ b1.status = BStatus.waiting then
    let b2 := { b1 with status := BStatus.ready }
    let out3 := broadcastToBattle b2.connections
      (BattleMsg.gameReady b2.challengeId b2.players) none
    ({ bst with battle := some b2, readyTimerArmed := true }, out1 ++ out2 ++ out3)
  else
    ({ bst with battle := some b1 }, out1 ++ out2)

/-- The 1 s hold callback: if the battle still exists, set its status to
in_progress (unconditionally, as in the source closure). -/
def readyTimerFire (bst : BattleState) : BattleState :=
  if bst.readyTimerArmed = true then
    { bst with battle := bst.battle.map (fun b => { b with status := BStatus.inProgress })
               readyTimerArmed := false }
  else bst

/-- Inbound battle envelopes handled by `BattleManager.handleMessage`. -/
inductive BInMsg
  | submitMove (round : Nat) (move : String)
  | gameEnded (winner : String)
deriving DecidableEq, Repr

/-- `BattleManager.handleMessage`: `submit_move` appends to the round ledger
unless the peer already moved that round (then it is ignored outright);
`game_ended` finalizes and arms the 30 s cleanup. -/
def handleMessage (pid : String) (msg : BInMsg) (now : Nat) (bst : BattleState) :
    BattleState × List (String × BattleMsg) :=
  match bst.battle with
  | none => (bst, [])
  | some battle =>
    match msg with
    | .submitMove round mv =>
      let move : BattleMove := { playerId := pid, move := mv, round := round, submittedAt := now }
      let existing := (lookupKey round battle.moves).getD []
      if existing.any (fun m => m.playerId = pid) then (bst, [])
      else
        let roundMoves := existing ++ [move]
        let b' := { battle with moves := setKey round roundMoves battle.moves }
        let out1 := broadcastToBattle b'.connections (BattleMsg.opponentMoved pid) (some pid)
        let out2 :=
          if roundMoves.length = 2 then
            broadcastToBattle b'.connections
              (BattleMsg.roundComplete round (roundMoves.map (fun m => (m.playerId, m.move)))) none
          else []
        ({ bst with battle := some b' }, out1 ++ out2)
    | .gameEnded w =>
      let b' := { battle with status := BStatus.ended, winner := some w }
      ({ bst with battle := some b', cleanupTimerArmed := true },
       broadcastToBattle b'.connections (BattleMsg.gameEnded (some w) battle.challengeId) none)

/-- `BattleManager.handleDisconnect`: drop the connection, notify the rest;
if the battle is in_progress and another peer exists in `players`, record it
as winner and broadcast `game_ended` — the status field is NOT changed.  When
no connections remain, the battle is cleaned up (deleted). -/
def handleDisconnect (pid : String) (bst : BattleState) :
    BattleState × List (String × BattleMsg) :=
  match bst.battle with
  | none => (bst, [])
  | some battle =>
    let b1 := { battle with connections := eraseMem pid battle.connections }
    let out1 := broadcastToBattle b1.connections (BattleMsg.opponentLeft pid) (some pid)
    let p :=
      if b1.status = BStatus.inProgress then
        match b1.players.find? (fun q => q ≠ pid) with
        | some remaining =>
          let b2 := { b1 with winner := some remaining }
          (b2, broadcastToBattle b2.connections
            (BattleMsg.gameEnded (some remaining) b2.challengeId) none)
        | none => (b1, ([] : List (String × BattleMsg)))
      else (b1, ([] : List (String × BattleMsg)))
    if p.1.connections.length = 0 then
      ({ bst with battle := none }, out1 ++ p.2)
    else
      ({ bst with battle := some p.1 }, out1 ++ p.2)

end BattleManager

-- ===========================================================================
-- server.js model (ws-server/server.js): GameRoom and its message handlers
-- ===========================================================================

/-- A player record of the `server.js` `GameRoom` (`{id, ws, state,
lastUpdate, alive}`; the socket handle is modelled away). -/
structure JsPlayer where
  id : String
  state : Option PlayerState
  lastUpdate : Nat
  alive : Bool
deriving DecidableEq, Repr

/-- The `server.js` `GameRoom`: roster plus client sockets (modelled by their
attached peer ids, all OPEN). -/
structure GameRoom where
  gameId : String
  players : List (String × JsPlayer)
  clients : List String
deriving DecidableEq, Repr

namespace GameRoom

/-- `GameRoom.broadcast` of server.js. -/
def broadcast (room : GameRoom) (msg : ArenaMsg) (exclude : Option String) :
    List (String × ArenaMsg) :=
  (room.clients.filter (fun c => keepPeer exclude c)).map (fun c => (c, msg))

/-- `GameRoom.updatePlayerState` of server.js: store the supplied state,
stamp `lastUpdate`, and mirror `alive` (`state.alive !== false`). -/
def updatePlayerState (room : GameRoom) (pid : String) (s : PlayerState)
    (now : Nat) : GameRoom :=
  match lookupKey pid room.players with
  | none => room
  | some pl =>
    let pl' := { pl with state := some s, lastUpdate := now, alive := s.alive }
    { room with players := setKey pid pl' room.players }

/-- Default object standing in for the fields left `undefined` when server.js
spreads a missing state in its `eliminated` handler; only `alive` matters. -/
def undefinedSpread : PlayerState :=
  { id := "", x := 0, y := 0, hp := 0, maxHp := 0, alive := false
    hasShield := false, hasSpeed := false, name := "", color := ""
    radius := 0, vx := 0, vy := 0 }

/-- The server.js `handleMessage` case `'eliminated'`: overwrite the sender's
stored state with `{...state, alive:false}` and broadcast `eliminated` to the
whole room (no winner check exists in server.js). -/
def handleEliminated (room : GameRoom) (pid : String) (now : Nat) :
    GameRoom × List (String × ArenaMsg) :=
  let newState :=
    match (lookupKey pid room.players).bind (fun pl => pl.state) with
    | some s => { s with alive := false }
    | none => undefinedSpread
  let room' := updatePlayerState room pid newState now
  (room', room'.broadcast (ArenaMsg.eliminated pid) none)

/-- The server.js `handleMessage` case `'heartbeat'`: set `ws.isAlive` and
reply with exactly one `heartbeat_ack` carrying the server timestamp. -/
def handleHeartbeat (pid : String) (now : Nat) (_wsIsAlive : Bool) :
    Bool × List (String × ArenaMsg) :=
  (true, [(pid, ArenaMsg.heartbeatAck now)])

end GameRoom

-- ===========================================================================
-- Invariants and derived notions the claims quantify over
-- ===========================================================================

/-- The move ledger of a battle at a round (`battle.moves.get(round)` with
`[]` default). -/
def movesAt (b : BattleSession) (r : Nat) : List BattleMove :=
  (lookupKey r b.moves).getD []

/-- At most one `MoveRecord` per peer in every round of the battle. -/
def NoDupMoves (b : BattleSession) : Prop :=
  ∀ r : Nat, ((movesAt b r).map (fun m => m.playerId)).Nodup

/-- Countdown-timer hygiene of an arena room: an armed countdown timer means
the session exists and sits in the countdown phase. -/
def ArenaInv (st : ArenaState) : Prop :=
  st.countdownTimerArmed = true → ∃ g, st.game = some g ∧ g.phase = Phase.countdown

/-- Whether an arena event is an `update` envelope from the given peer. -/
def isUpdateFrom (e : UnifiedServer.AEvent) (p : String) : Bool :=
  match e with
  | .msgUpdate q _ => q = p
  | _ => false

-- ===========================================================================
-- Concrete scenario states used by counterexamples and witnesses
-- ===========================================================================

/-- The empty arena-room state (no session, no connections, no timers). -/
def arenaInit : ArenaState :=
  { game := none, conns := [], countdownTimerArmed := false
    autoStartPending := false, deadlineTimerArmed := false }

/-- The empty battle-room state. -/
def battleInit : BattleState :=
  { battle := none, readyTimerArmed := false, cleanupTimerArmed := false }

/-- A concrete alive `PlayerState` for peer `P`. -/
def psAlice : PlayerState :=
  { id := "P", x := 3, y := 4, hp := 5, maxHp := 10, alive := true
    hasShield := false, hasSpeed := true, name := "alice", color := "red"
    radius := 1, vx := 0, vy := 0 }

/-- A fresh connection record at time 0. -/
def conn0 : ClientConnection := { lastHeartbeat := 0, isAlive := true }

/-- Battle run for C1: peers A and B join challenge x, the 1 s hold fires
(status in_progress), then a third peer C attempts to connect. -/
def c1Run : BattleState :=
  (BattleManager.handleConnection "x" "C" 2
    (BattleManager.readyTimerFire
      (BattleManager.handleConnection "x" "B" 1
        (BattleManager.handleConnection "x" "A" 0 battleInit).1).1)).1

/-- Arena state for C2: active phase, peer P connected with a stored alive
state. -/
def c2State : ArenaState :=
  { game := some { freshGame 7 with phase := Phase.active, players := [("P", psAlice)] }
    conns := [("P", conn0)]
    countdownTimerArmed := false, autoStartPending := false, deadlineTimerArmed := false }

/-- Run for C2: peer P sends `eliminated` on `c2State`. -/
def c2Run : ArenaState × List (String × ArenaMsg) :=
  MessageHandler.handleEliminated "P" c2State

/-- Battle run for C3: A and B reach in_progress, then A's socket closes. -/
def c3Run : BattleState × List (String × BattleMsg) :=
  BattleManager.handleDisconnect "A"
    (BattleManager.readyTimerFire
      (BattleManager.handleConnection "x" "B" 1
        (BattleManager.handleConnection "x" "A" 0 battleInit).1).1)

/-- Arena run for C4: P connects to game 7 and sends `mark_ready` as the only
ready peer. -/
def c4Run : ArenaState × List (String × ArenaMsg) :=
  UnifiedServer.step 7 1 (UnifiedServer.AEvent.msgMarkReady "P")
    (UnifiedServer.step 7 0 (UnifiedServer.AEvent.connect "P") arenaInit).1

/-- Arena state for C5: peer P connected to an existing waiting session. -/
def c5State : ArenaState :=
  { game := some (freshGame 7), conns := [("P", conn0)]
    countdownTimerArmed := false, autoStartPending := false, deadlineTimerArmed := false }

/-- Run for C5: peer P sends `heartbeat` at time 5. -/
def c5Run : ArenaState × List (String × ArenaMsg) :=
  MessageHandler.handleHeartbeat "P" 5 c5State

/-- A server.js player record for peer P with a stored alive state. -/
def jsPlayerP : JsPlayer :=
  { id := "P", state := some psAlice, lastUpdate := 0, alive := true }

/-- A server.js room with the single peer P connected. -/
def jsRoom : GameRoom :=
  { gameId := "7", players := [("P", jsPlayerP)], clients := ["P"] }

/-- A battle state in round play used for the duplicate-move witness: A has
already submitted a move for round 0. -/
def c8State : BattleState :=
  { battle := some
      { challengeId := "x", players := ["A", "B"], connections := ["A", "B"]
        moves := [(0, [{ playerId := "A", move := "rock", round := 0, submittedAt := 5 }])]
        status := BStatus.inProgress, winner := none, createdAt := 0 }
    readyTimerArmed := false, cleanupTimerArmed := false }

/-- Arena run for C10: A connects, B connects, then A disconnects. -/
def c10Run : ArenaState × List (String × ArenaMsg) :=
  UnifiedServer.step 7 2 (UnifiedServer.AEvent.disconnect "A")
    (UnifiedServer.step 7 1 (UnifiedServer.AEvent.connect "B")
      (UnifiedServer.step 7 0 (UnifiedServer.AEvent.connect "A") arenaInit).1).1

-- ===========================================================================
-- Helper lemmas
-- ===========================================================================

theorem lookupKey_setKey_self {κ α : Type} [DecidableEq κ] (k : κ) (v : α) :
    ∀ l : List (κ × α), lookupKey k (setKey k v l) = some v := by
  intro l
  induction l with
  | nil => simp [setKey, lookupKey]
  | cons hd tl ih =>
    by_cases h : hd.1 = k
    · simp [setKey, lookupKey, h]
    · simp [setKey, lookupKey, h, ih]

theorem lookupKey_setKey_ne {κ α : Type} [DecidableEq κ] (k k' : κ) (v : α)
    (hne : k' ≠ k) : ∀ l : List (κ × α), lookupKey k' (setKey k v l) = lookupKey k' l := by
  intro l
  have hkk : ¬ (k = k') := fun h => hne h.symm
  induction l with
  | nil => simp [setKey, lookupKey, hkk]
  | cons hd tl ih =>
    by_cases h : hd.1 = k
    · simp [setKey, lookupKey, h, hkk]
    · simp [setKey, lookupKey, h, ih]

theorem mem_keys_setKey {κ α : Type} [DecidableEq κ] (p k : κ) (v : α) :
    ∀ l : List (κ × α), p ∈ (setKey k v l).map Prod.fst ↔ p = k ∨ p ∈ l.map Prod.fst := by
  intro l
  induction l with
  | nil => simp [setKey]
  | cons hd tl ih =>
    rw [setKey]
    by_cases h : hd.1 = k
    · rw [if_pos h]
      simp only [List.map_cons, List.mem_cons]
      rw [h]
      tauto
    · rw [if_neg h]
      simp only [List.map_cons, List.mem_cons, ih]
      tauto

theorem mem_keys_eraseKey {κ α : Type} [DecidableEq κ] (p k : κ)
    (l : List (κ × α)) (hp : p ∈ (eraseKey k l).map Prod.fst) : p ∈ l.map Prod.fst := by
  simp only [eraseKey] at hp
  simp only [List.mem_map] at hp ⊢
  rcases hp with ⟨q, hq, rfl⟩
  exact ⟨q, (List.mem_filter.mp hq).1, rfl⟩

theorem addMem_of_not_mem (x : String) (l : List String) (h : x ∉ l) :
    addMem x l = l ++ [x] := by
  simp [addMem, h]

theorem addMem_length_pos (x : String) (l : List String) :
    1 ≤ (addMem x l).length := by
  by_cases h : x ∈ l
  · simp only [addMem, if_pos h]
    exact List.length_pos.mpr (List.ne_nil_of_mem h)
  · simp [addMem, h]

theorem canStartGame_fst_true (g : GameSession) (hph : g.phase = Phase.waiting)
    (hrc : 1 ≤ g.readyPlayers.length) :
    (GameManager.canStartGame (some g)).1 = true := by
  simp only [GameManager.canStartGame, hph]
  have h0 : ¬ g.readyPlayers.length = 0 := by omega
  by_cases h1 : g.readyPlayers.length = 1 <;> simp [h0, h1]

theorem canStartGame_phase_of_true (g : GameSession)
    (h : (GameManager.canStartGame (some g)).1 = true) : g.phase = Phase.waiting := by
  by_contra hph
  simp [GameManager.canStartGame, hph] at h

theorem phase_idx_le_ended (p : Phase) : p.idx ≤ Phase.idx Phase.ended := by
  cases p <;> simp [Phase.idx]

theorem startGame_players_eq (st : ArenaState) (now : Nat) :
    ((GameManager.startGame st now).1).game.map (fun g => g.players)
      = st.game.map (fun g => g.players) := by
  rcases hg : st.game with _ | g
  · simp [GameManager.startGame, hg]
  · simp only [GameManager.startGame, hg]
    by_cases hc : (GameManager.canStartGame (some g)).1 = false
    · simp [hc, hg]
    · by_cases h1 : (GameManager.canStartGame (some g)).2.2 = 1 <;> simp [hc, h1, hg]

theorem declareWinner_players_eq (wid : String) (st : ArenaState) :
    ((GameManager.declareWinner wid st).game).map (fun g => g.players)
      = st.game.map (fun g => g.players) := by
  rcases hg : st.game with _ | g <;> simp [GameManager.declareWinner, hg]

theorem handleEliminated_players_eq (pid : String) (st : ArenaState) :
    ((MessageHandler.handleEliminated pid st).1).game.map (fun g => g.players)
      = st.game.map (fun g => g.players) := by
  rcases hg : st.game with _ | g
  · simp [MessageHandler.handleEliminated, hg]
  · simp only [MessageHandler.handleEliminated, hg]
    by_cases hph : g.phase = Phase.active
    · simp only [hph, if_true]
      set ap := (g.players.map Prod.snd).filter (fun p => p.alive) with hap
      by_cases hlen : ap.length ≤ 1 ∧ 0 < ap.length
      · rcases hhd : ap.head? with _ | w
        · simp [hlen, hhd, hg]
        · simp only [hlen, if_true, hhd]
          have := declareWinner_players_eq w.id st
          simpa [hg] using this
      · simp [hlen, hg]
    · simp [hph, hg]

theorem handleEliminated_out_has_broadcast (pid : String) (st : ArenaState) :
    ∃ rest, (MessageHandler.handleEliminated pid st).2
      = broadcastToGame st.conns (ArenaMsg.eliminated pid) none ++ rest := by
  simp only [MessageHandler.handleEliminated]
  rcases st.game with _ | g
  · exact ⟨[], by simp⟩
  · by_cases hph : g.phase = Phase.active
    · simp only [hph, if_true]
      set ap := (g.players.map Prod.snd).filter (fun p => p.alive) with hap
      by_cases hlen : ap.length ≤ 1 ∧ 0 < ap.length
      · rcases hhd : ap.head? with _ | w
        · exact ⟨[], by simp [hlen, hhd]⟩
        · refine ⟨broadcastToGame (GameManager.declareWinner w.id st).conns
            (ArenaMsg.winner (some w.id)) none, ?_⟩
          simp [hlen, hhd]
      · exact ⟨[], by simp [hlen]⟩
    · exact ⟨[], by simp [hph]⟩

theorem transitionToActive_players_eq (st : ArenaState) (now : Nat) :
    ((GameManager.transitionToActive st now).1).game.map (fun g => g.players)
      = st.game.map (fun g => g.players) := by
  rcases hg : st.game with _ | g <;> simp [GameManager.transitionToActive, hg]

theorem players_eq_of_game_map {o o' : Option GameSession} {g g' : GameSession}
    (h : o'.map (fun x => x.players) = o.map (fun x => x.players))
    (ho' : o' = some g') (ho : o = some g) : g'.players = g.players := by
  rw [ho', ho] at h
  simpa using h

theorem removePlayer_keys (pid : String) (st : ArenaState) (g g' : GameSession)
    (hg : st.game = some g) (h : (GameManager.removePlayer pid st).game = some g')
    (p : String) (hp : p ∈ g'.players.map Prod.fst) : p ∈ g.players.map Prod.fst := by
  simp only [GameManager.removePlayer, hg] at h
  split at h
  · simp at h
  · simp only at h
    rw [Option.some_inj] at h
    rw [← h] at hp
    exact mem_keys_eraseKey p pid g.players hp

theorem checkAutoStart_game (st : ArenaState) :
    (UnifiedServer.checkAutoStart st).game = st.game := by
  simp only [UnifiedServer.checkAutoStart]
  split <;> rfl

theorem checkAutoStart_pending_of_canStart (st : ArenaState)
    (h : (GameManager.canStartGame st.game).1 = true) :
    (UnifiedServer.checkAutoStart st).autoStartPending = true := by
  simp [UnifiedServer.checkAutoStart, h]

theorem checkAutoStart_armed (st : ArenaState) :
    (UnifiedServer.checkAutoStart st).countdownTimerArmed = st.countdownTimerArmed := by
  simp only [UnifiedServer.checkAutoStart]
  split <;> rfl

theorem startDeadlineMonitor_game (deadline now : Nat) (st : ArenaState) :
    (UnifiedServer.startDeadlineMonitor deadline now st).game = st.game := by
  simp only [UnifiedServer.startDeadlineMonitor]
  split
  · rw [checkAutoStart_game]
  · rfl

theorem startDeadlineMonitor_armed (deadline now : Nat) (st : ArenaState) :
    (UnifiedServer.startDeadlineMonitor deadline now st).countdownTimerArmed
      = st.countdownTimerArmed := by
  simp only [UnifiedServer.startDeadlineMonitor]
  split
  · rw [checkAutoStart_armed]
  · rfl

theorem handleStartGame_fst (pid : String) (now : Nat) (st : ArenaState) :
    (MessageHandler.handleStartGame pid now st).1 = (GameManager.startGame st now).1 := by
  simp only [MessageHandler.handleStartGame]
  split <;> rfl

theorem handleEliminated_fst_cases (pid : String) (st : ArenaState) :
    (MessageHandler.handleEliminated pid st).1 = st
    ∨ ∃ w, (MessageHandler.handleEliminated pid st).1 = GameManager.declareWinner w st := by
  simp only [MessageHandler.handleEliminated]
  rcases st.game with _ | g
  · left
    rfl
  · by_cases hph : g.phase = Phase.active
    · simp only [hph, if_true]
      set ap := (g.players.map Prod.snd).filter (fun p => p.alive) with hap
      by_cases hlen : ap.length ≤ 1 ∧ 0 < ap.length
      · rcases hhd : ap.head? with _ | w
        · simp only [hlen, if_true, hhd]
          left
          trivial
        · simp only [hlen, if_true, hhd]
          right
          exact ⟨w.id, rfl⟩
      · simp only [hlen, if_false]
        left
        trivial
    · simp only [hph, if_false]
      left
      trivial

/-- Frame transfer: when a step changes neither the countdown-timer flag nor
the phase of the (possibly rebuilt) session, the countdown invariant and
phase monotonicity carry over. -/
theorem inv_mono_of_phase_frame (st st' : ArenaState) (hinv : ArenaInv st)
    (harm : st'.countdownTimerArmed = st.countdownTimerArmed)
    (hph : st'.game.map (fun g => g.phase) = st.game.map (fun g => g.phase)) :
    ArenaInv st'
    ∧ (∀ g g', st.game = some g → st'.game = some g' → g.phase.idx ≤ g'.phase.idx) := by
  constructor
  · intro h
    rw [harm] at h
    rcases hinv h with ⟨g2, hg2, hph2⟩
    have hsome : st'.game.map (fun g => g.phase) = some g2.phase := by
      rw [hph, hg2]
      rfl
    rcases Option.map_eq_some'.mp hsome with ⟨g3, hg3, hph3⟩
    refine ⟨g3, hg3, ?_⟩
    rw [hph3]
    exact hph2
  · intro g g' hg hg'
    have h1 := hph
    rw [hg, hg'] at h1
    simp only [Option.map_some'] at h1
    rw [Option.some_inj] at h1
    rw [h1]

theorem mono_le_refl (st : ArenaState) :
    ∀ g g', st.game = some g → st.game = some g' → g.phase.idx ≤ g'.phase.idx := by
  intro g g' h h'
  rw [h, Option.some_inj] at h'
  rw [h']

theorem declareWinner_inv_mono (wid : String) (st : ArenaState) (hinv : ArenaInv st) :
    ArenaInv (GameManager.declareWinner wid st)
    ∧ (∀ g g', st.game = some g → (GameManager.declareWinner wid st).game = some g' →
        g.phase.idx ≤ g'.phase.idx) := by
  rcases hg : st.game with _ | g
  · rw [show GameManager.declareWinner wid st = st by simp [GameManager.declareWinner, hg]]
    exact ⟨hinv, fun g g' h _ => nomatch h⟩
  · simp only [GameManager.declareWinner, hg]
    constructor
    · intro h
      simp at h
    · intro g0 g0' h0 h0'
      rw [Option.some_inj] at h0'
      rw [← h0']
      exact phase_idx_le_ended g0.phase

theorem startGame_inv_mono (st : ArenaState) (now : Nat) (hinv : ArenaInv st) :
    ArenaInv (GameManager.startGame st now).1
    ∧ (∀ g g', st.game = some g → (GameManager.startGame st now).1.game = some g' →
        g.phase.idx ≤ g'.phase.idx) := by
  rcases hg : st.game with _ | g
  · rw [show (GameManager.startGame st now).1 = st by simp [GameManager.startGame, hg]]
    exact ⟨hinv, fun g g' h _ => nomatch h⟩
  · simp only [GameManager.startGame, hg]
    by_cases hc : (GameManager.canStartGame (some g)).1 = false
    · rw [if_pos hc]
      refine ⟨hinv, ?_⟩
      intro g0 g0' h0 h0'
      rw [Option.some_inj] at h0
      rw [hg, Option.some_inj] at h0'
      rw [← h0, ← h0']
    · have hct : (GameManager.canStartGame (some g)).1 = true := by
        cases hx : (GameManager.canStartGame (some g)).1
        · exact absurd hx hc
        · rfl
      have hw : g.phase = Phase.waiting := canStartGame_phase_of_true g hct
      have harmf : st.countdownTimerArmed = false := by
        cases hx : st.countdownTimerArmed
        · rfl
        · rcases hinv hx with ⟨g2, hg2, hph2⟩
          rw [hg, Option.some_inj] at hg2
          rw [← hg2, hw] at hph2
          exact absurd hph2 (by decide)
      rw [if_neg hc]
      by_cases h1 : (GameManager.canStartGame (some g)).2.2 = 1
      · rw [if_pos h1]
        constructor
        · intro h
          simp only at h
          rw [harmf] at h
          simp at h
        · intro g0 g0' h0 h0'
          simp only at h0'
          rw [Option.some_inj] at h0'
          rw [← h0']
          exact phase_idx_le_ended g0.phase
      · rw [if_neg h1]
        constructor
        · intro _
          exact ⟨_, rfl, rfl⟩
        · intro g0 g0' h0 h0'
          rw [Option.some_inj] at h0
          rw [Option.some_inj] at h0'
          rw [← h0, ← h0', hw]
          exact Nat.zero_le _

theorem transitionToActive_fst (st : ArenaState) (now : Nat) (g : GameSession)
    (hg : st.game = some g) :
    (GameManager.transitionToActive st now).1
      = { st with game := some { g with phase := Phase.active, startTime := some now } } := by
  simp [GameManager.transitionToActive, hg]

theorem removePlayer_inv_mono (pid : String) (st : ArenaState) (hinv : ArenaInv st) :
    ArenaInv (GameManager.removePlayer pid st)
    ∧ (∀ g g', st.game = some g → (GameManager.removePlayer pid st).game = some g' →
        g.phase.idx ≤ g'.phase.idx) := by
  rcases hg : st.game with _ | g
  · rw [show GameManager.removePlayer pid st = st by simp [GameManager.removePlayer, hg]]
    exact ⟨hinv, fun g g' h _ => nomatch h⟩
  · simp only [GameManager.removePlayer, hg]
    split
    · constructor
      · intro h
        simp at h
      · intro g0 g0' h0 h0'
        simp at h0'
    · constructor
      · intro h
        rcases hinv h with ⟨g2, hg2, hph2⟩
        have hgg2 : g = g2 := by
          rw [hg] at hg2
          exact Option.some_inj.mp hg2
        refine ⟨_, rfl, ?_⟩
        show g.phase = Phase.countdown
        rw [hgg2]
        exact hph2
      · intro g0 g0' h0 h0'
        have hg0 : g = g0 := Option.some_inj.mp h0
        have h3 := Option.some_inj.mp h0'
        rw [← h3, ← hg0]

-- ===========================================================================
-- Claim theorems
-- ===========================================================================

/-- C6: in the Waiting phase with an empty ready set, `start_game` makes the
server reply to the requester alone with `{type:"error", message:"No players
ready"}`; no broadcast is emitted and the whole room state (phase, readySet,
players, winner, timers, connections) is unchanged. -/
theorem c6_start_game_no_ready (pid : String) (now : Nat) (st : ArenaState)
    (g : GameSession) (hg : st.game = some g) (hph : g.phase = Phase.waiting)
    (hrd : g.readyPlayers = []) (hc : (lookupKey pid st.conns).isSome = true) :
    MessageHandler.handleStartGame pid now st
      = (st, [(pid, ArenaMsg.error "No players ready")]) := by
  rcases Option.isSome_iff_exists.mp hc with ⟨c, hcc⟩
  simp [MessageHandler.handleStartGame, GameManager.startGame,
        GameManager.canStartGame, hg, hph, hrd, sendToPlayer, hcc]

/-- Witness for C6 at a concrete waiting room with no ready peers. -/
theorem c6_start_game_no_ready_witness :
    MessageHandler.handleStartGame "P" 3 c5State
      = (c5State, [("P", ArenaMsg.error "No players ready")]) :=
  c6_start_game_no_ready "P" 3 c5State (freshGame 7) rfl rfl rfl rfl

/-- C9: an arena `update` from peer p changes only `players[p]` — connections,
timers, phase, readySet, winner, countdownStartTime, startTime are untouched —
and the data is rebroadcast as an `update` envelope to every connection of
the room other than p. -/
theorem c9_update_frame (pid : String) (s : PlayerState) (st : ArenaState) :
    ((MessageHandler.handlePlayerUpdate pid s st).1.conns = st.conns
      ∧ (MessageHandler.handlePlayerUpdate pid s st).1.countdownTimerArmed
          = st.countdownTimerArmed
      ∧ (MessageHandler.handlePlayerUpdate pid s st).1.autoStartPending
          = st.autoStartPending
      ∧ (MessageHandler.handlePlayerUpdate pid s st).1.deadlineTimerArmed
          = st.deadlineTimerArmed)
    ∧ (st.game = none → (MessageHandler.handlePlayerUpdate pid s st).1.game = none)
    ∧ (∀ g, st.game = some g →
        (MessageHandler.handlePlayerUpdate pid s st).1.game
          = some { g with players := setKey pid s g.players })
    ∧ (MessageHandler.handlePlayerUpdate pid s st).2
        = broadcastToGame st.conns (ArenaMsg.update pid s) (some pid) := by
  refine ⟨⟨rfl, rfl, rfl, rfl⟩, ?_, ?_, rfl⟩
  · intro h
    simp [MessageHandler.handlePlayerUpdate, GameManager.updatePlayerState, h]
  · intro g hg
    simp [MessageHandler.handlePlayerUpdate, GameManager.updatePlayerState, hg]

/-- Witness for C9 on a concrete waiting room. -/
theorem c9_update_frame_witness :
    (MessageHandler.handlePlayerUpdate "P" psAlice c5State).1.game
      = some { freshGame 7 with players := setKey "P" psAlice (freshGame 7).players } :=
  (c9_update_frame "P" psAlice c5State).2.2.1 (freshGame 7) rfl

/-- C5 counterexample: in the TypeScript server a `heartbeat` from a connected
peer produces NO outbound message at all — in particular not the single
`heartbeat_ack` the claim asserts — even though the heartbeat timestamp is
touched. -/
theorem c5_heartbeat_counterexample :
    c5Run.2 = ([] : List (String × ArenaMsg))
    ∧ lookupKey "P" c5Run.1.conns = some { lastHeartbeat := 5, isAlive := true } := by
  constructor <;> rfl

/-- C5 (amended): the TypeScript server replies to `heartbeat` with nothing —
it only touches the connection record (`lastHeartbeat := now`, `isAlive`);
the `server.js` variant is the one that sends exactly one `heartbeat_ack`
per heartbeat request. -/
theorem c5_heartbeat_amended :
    (∀ pid now st, (MessageHandler.handleHeartbeat pid now st).2
        = ([] : List (String × ArenaMsg)))
    ∧ (∀ pid now st c, lookupKey pid st.conns = some c →
        lookupKey pid (MessageHandler.handleHeartbeat pid now st).1.conns
          = some { lastHeartbeat := now, isAlive := true })
    ∧ (∀ pid now b, (GameRoom.handleHeartbeat pid now b).2
        = [(pid, ArenaMsg.heartbeatAck now)]) := by
  refine ⟨fun _ _ _ => rfl, ?_, fun _ _ _ => rfl⟩
  intro pid now st c hc
  simp [MessageHandler.handleHeartbeat, updateHeartbeat, hc, lookupKey_setKey_self]

/-- Witness for C5 (amended) at a concrete connected peer. -/
theorem c5_heartbeat_amended_witness :
    lookupKey "P" (MessageHandler.handleHeartbeat "P" 5 c5State).1.conns
      = some { lastHeartbeat := 5, isAlive := true } :=
  c5_heartbeat_amended.2.1 "P" 5 c5State conn0 rfl

/-- C2 counterexample: in the TypeScript server, an arena `eliminated` from
peer P leaves P's stored `PlayerState` untouched (`alive` is still true) —
and the winner check over the stored flags then even declares the eliminated
peer P itself the winner. -/
theorem c2_eliminated_counterexample :
    (c2Run.1.game.map (fun g => g.players)).getD [] = [("P", psAlice)]
    ∧ psAlice.alive = true
    ∧ (c2Run.1.game.map (fun g => g.winner)).getD none = some "P" := by
  refine ⟨rfl, rfl, rfl⟩

/-- C2 (amended): the TypeScript server's `eliminated` handler never modifies
any stored `PlayerState` (the roster is unchanged); it does broadcast the
`eliminated` envelope first and then runs the winner check over the stored
`alive` flags.  Only the `server.js` variant sets the sender's stored state
to `alive = false` (and it performs no winner check). -/
theorem c2_eliminated_amended :
    (∀ pid st, ((MessageHandler.handleEliminated pid st).1).game.map (fun g => g.players)
        = st.game.map (fun g => g.players))
    ∧ (∀ pid st, ∃ rest, (MessageHandler.handleEliminated pid st).2
        = broadcastToGame st.conns (ArenaMsg.eliminated pid) none ++ rest)
    ∧ (∀ room pid now s pl, lookupKey pid room.players = some pl → pl.state = some s →
        lookupKey pid (GameRoom.handleEliminated room pid now).1.players
          = some { pl with state := some { s with alive := false }
                           lastUpdate := now, alive := false }) := by
  refine ⟨handleEliminated_players_eq, handleEliminated_out_has_broadcast, ?_⟩
  intro room pid now s pl hlk hs
  simp [GameRoom.handleEliminated, GameRoom.updatePlayerState, hlk, hs,
        lookupKey_setKey_self]

/-- Witness for C2 (amended) on a concrete server.js room. -/
theorem c2_eliminated_amended_witness :
    lookupKey "P" (GameRoom.handleEliminated jsRoom "P" 9).1.players
      = some { jsPlayerP with state := some { psAlice with alive := false }
                              lastUpdate := 9, alive := false } :=
  c2_eliminated_amended.2.2 jsRoom "P" 9 psAlice jsPlayerP rfl rfl

/-- C4 counterexample: a single peer P connects to game 7 and sends
`mark_ready`; the resulting ready set has exactly one member, yet the
UnifiedServer schedules the 1 s auto-start — contradicting the claim that a
single ready peer never causes an auto-start to be scheduled. -/
theorem c4_single_ready_counterexample :
    (c4Run.1.game.map (fun g => g.readyPlayers)).getD [] = ["P"]
    ∧ c4Run.1.autoStartPending = true := by
  refine ⟨rfl, rfl⟩

/-- C4 (amended): after `mark_ready` from p in the Waiting phase the
UnifiedServer schedules the auto-start iff the resulting `readySet` is
non-empty — which it always is once p is added, so every `mark_ready` in
Waiting schedules the auto-start, including the first (single) ready peer.
The `readyCount >= 2` threshold exists only in the `part_000` variant's
`canStartGame`. -/
theorem c4_mark_ready_autostart (gid : Nat) (pid : String) (now : Nat)
    (st : ArenaState) (hph : ∀ g, st.game = some g → g.phase = Phase.waiting) :
    ((UnifiedServer.step gid now (UnifiedServer.AEvent.msgMarkReady pid) st).1.autoStartPending
        = true
      ∧ 1 ≤ (((UnifiedServer.step gid now (UnifiedServer.AEvent.msgMarkReady pid) st).1.game).map
          (fun g => g.readyPlayers.length)).getD 0)
    ∧ (∀ g, (Part000.canStartGame (some g)).1 = true ↔ 2 ≤ g.readyPlayers.length) := by
  have hg0 : (GameManager.getOrCreateGame gid st.game).phase = Phase.waiting := by
    rcases hsg : st.game with _ | g
    · simp [GameManager.getOrCreateGame, hsg, freshGame]
    · simpa [GameManager.getOrCreateGame, hsg] using hph g hsg
  set g0 := GameManager.getOrCreateGame gid st.game with hg0def
  set g1 : GameSession := { g0 with readyPlayers := addMem pid g0.readyPlayers } with hg1
  have hstep : (UnifiedServer.step gid now (UnifiedServer.AEvent.msgMarkReady pid) st).1
      = UnifiedServer.checkAutoStart { st with game := some g1 } := rfl
  have hcan : (GameManager.canStartGame (some g1)).1 = true :=
    canStartGame_fst_true g1 (by simpa [hg1] using hg0)
      (by simpa [hg1] using addMem_length_pos pid g0.readyPlayers)
  constructor
  · constructor
    · rw [hstep]
      exact checkAutoStart_pending_of_canStart _ (by simpa using hcan)
    · rw [hstep, checkAutoStart_game]
      simpa [hg1] using addMem_length_pos pid g0.readyPlayers
  · intro g
    simp [Part000.canStartGame]

/-- Witness for C4 (amended): the concrete single-ready run. -/
theorem c4_mark_ready_autostart_witness :
    (UnifiedServer.step 7 1 (UnifiedServer.AEvent.msgMarkReady "P")
        (UnifiedServer.step 7 0 (UnifiedServer.AEvent.connect "P") arenaInit).1).1.autoStartPending
      = true :=
  (c4_mark_ready_autostart 7 "P" 1
    (UnifiedServer.step 7 0 (UnifiedServer.AEvent.connect "P") arenaInit).1
    (fun g hg => by cases hg; rfl)).1.1

/-- C1 counterexample: challenge x fills with A and B and goes in_progress;
a third distinct peer C then connects and IS added — `players` grows to
["A","B","C"], size 3 — so `players` is not bounded by 2 and the third
attempt is not refused. -/
theorem c1_third_peer_counterexample :
    (c1Run.battle.map (fun b => b.players)).getD [] = ["A", "B", "C"]
    ∧ (c1Run.battle.map (fun b => b.status)).getD BStatus.waiting = BStatus.inProgress := by
  refine ⟨rfl, rfl⟩

/-- C1 (amended): `BattleManager.handleConnection` never refuses a peer: a
connection attempt by a peer not yet in `players` of a battle that is past
the Waiting status is accepted — the peer is appended to `players` (which
can thereby exceed 2 members) and to `connections`, while status, moves and
winner are unchanged. -/
theorem c1_third_peer_added (cid pid : String) (now : Nat) (bst : BattleState)
    (b : BattleSession) (hb : bst.battle = some b) (hpm : pid ∉ b.players)
    (hst : b.status ≠ BStatus.waiting) :
    (BattleManager.handleConnection cid pid now bst).1.battle
      = some { b with players := b.players ++ [pid]
                      connections := addMem pid b.connections } := by
  simp only [BattleManager.handleConnection, hb, Option.getD_some]
  rw [addMem_of_not_mem pid b.players hpm]
  have hcond : ¬ (b.players.length = 1 ∧ b.status = BStatus.waiting) := fun h => hst h.2
  simp [hcond]

/-- Witness for C1 (amended): the concrete third join of `c1Run`'s prefix. -/
theorem c1_third_peer_added_witness :
    (BattleManager.handleConnection "x" "C" 2
      (BattleManager.readyTimerFire
        (BattleManager.handleConnection "x" "B" 1
          (BattleManager.handleConnection "x" "A" 0 battleInit).1).1)).1.battle
      = some { challengeId := "x", players := ["A", "B"] ++ ["C"]
               connections := addMem "C" ["A", "B"], moves := []
               status := BStatus.inProgress, winner := none, createdAt := 0 } :=
  c1_third_peer_added "x" "C" 2
    (BattleManager.readyTimerFire
      (BattleManager.handleConnection "x" "B" 1
        (BattleManager.handleConnection "x" "A" 0 battleInit).1).1)
    { challengeId := "x", players := ["A", "B"], connections := ["A", "B"]
      moves := [], status := BStatus.inProgress, winner := none, createdAt := 0 }
    rfl (by decide) (by decide)

/-- C3 counterexample: two peers A and B are in_progress in challenge x and
A's socket closes; the battle records winner B and broadcasts `game_ended`,
but its `status` REMAINS in_progress — it does not become Ended as the claim
states. -/
theorem c3_disconnect_counterexample :
    (c3Run.1.battle.map (fun b => b.status)).getD BStatus.waiting = BStatus.inProgress
    ∧ (c3Run.1.battle.map (fun b => b.winner)).getD none = some "B" := by
  refine ⟨rfl, rfl⟩

/-- C3 (amended): when a peer of an in_progress two-peer battle disconnects
while the other peer is still connected, the battle's winner becomes the
remaining peer and a `game_ended` envelope naming that winner is sent to the
remaining peer (after `opponent_left`) — but the battle's `status` stays
in_progress; nothing sets it to Ended on this path. -/
theorem c3_disconnect_winner (bst : BattleState) (bat : BattleSession)
    (a b : String) (hb : bst.battle = some bat)
    (hst : bat.status = BStatus.inProgress) (hpl : bat.players = [a, b])
    (hne : a ≠ b) (hco : bat.connections = [a, b]) :
    (BattleManager.handleDisconnect a bst).1.battle
      = some { bat with connections := [b], winner := some b }
    ∧ (BattleManager.handleDisconnect a bst).2
      = [(b, BattleMsg.opponentLeft a), (b, BattleMsg.gameEnded (some b) bat.challengeId)] := by
  have hba : ¬ (b = a) := fun h => hne h.symm
  have herase : eraseMem a bat.connections = [b] := by
    simp [eraseMem, hco, hba]
  have hfind : List.find? (fun q => q ≠ a) [a, b] = some b := by
    simp [List.find?, hba]
  constructor <;>
    simp [BattleManager.handleDisconnect, hb, hst, hpl, herase, hfind,
          broadcastToBattle, keepPeer, hba]

/-- Witness for C3 (amended): the concrete disconnect run. -/
theorem c3_disconnect_winner_witness :
    (BattleManager.handleDisconnect "A"
      (BattleManager.readyTimerFire
        (BattleManager.handleConnection "x" "B" 1
          (BattleManager.handleConnection "x" "A" 0 battleInit).1).1)).2
      = [("B", BattleMsg.opponentLeft "A"), ("B", BattleMsg.gameEnded (some "B") "x")] :=
  (c3_disconnect_winner
    (BattleManager.readyTimerFire
      (BattleManager.handleConnection "x" "B" 1
        (BattleManager.handleConnection "x" "A" 0 battleInit).1).1)
    { challengeId := "x", players := ["A", "B"], connections := ["A", "B"]
      moves := [], status := BStatus.inProgress, winner := none, createdAt := 0 }
    "A" "B" rfl rfl rfl (by decide) rfl).2

/-- C8: the battle move ledger keeps at most one record per peer and round:
processing any battle message preserves the per-round no-duplicate property,
and a second `submit_move` for a round in which the peer already has a record
is ignored outright — the state and the outbound stream are unchanged. -/
theorem c8_no_duplicate_moves :
    (∀ (pid : String) (msg : BattleManager.BInMsg) (now : Nat) (bst : BattleState)
        (b b' : BattleSession), bst.battle = some b → NoDupMoves b →
        (BattleManager.handleMessage pid msg now bst).1.battle = some b' → NoDupMoves b')
    ∧ (∀ (pid : String) (round : Nat) (mv : String) (now : Nat) (bst : BattleState)
        (b : BattleSession), bst.battle = some b →
        (movesAt b round).any (fun m => m.playerId = pid) = true →
        BattleManager.handleMessage pid (BattleManager.BInMsg.submitMove round mv) now bst
          = (bst, [])) := by
  constructor
  · intro pid msg now bst b b' hb hnd hb'
    cases msg with
    | submitMove round mv =>
      simp only [BattleManager.handleMessage, hb] at hb'
      by_cases hdup :
          ((lookupKey round b.moves).getD []).any (fun m => m.playerId = pid) = true
      · rw [if_pos hdup] at hb'
        rw [hb] at hb'
        rw [Option.some_inj] at hb'
        rw [← hb']
        exact hnd
      · rw [if_neg hdup] at hb'
        simp only at hb'
        rw [Option.some_inj] at hb'
        rw [← hb']
        intro r
        by_cases hr : r = round
        · subst hr
          have hpid : pid ∉ ((lookupKey r b.moves).getD []).map (fun m => m.playerId) := by
            intro hmem
            rcases List.mem_map.mp hmem with ⟨m, hm, hmp⟩
            exact hdup (List.any_eq_true.mpr ⟨m, hm, by simp [hmp]⟩)
          have hbase : (((lookupKey r b.moves).getD []).map (fun m => m.playerId)).Nodup :=
            hnd r
          simp only [movesAt, lookupKey_setKey_self]
          rw [Option.getD_some, List.map_append]
          refine List.Nodup.append hbase (by simp) ?_
          intro q hq hq'
          simp only [List.map_cons, List.map_nil, List.mem_singleton] at hq'
          rw [hq'] at hq
          exact hpid hq
        · have : lookupKey r (setKey round ((lookupKey round b.moves).getD []
              ++ [{ playerId := pid, move := mv, round := round, submittedAt := now }]) b.moves)
              = lookupKey r b.moves :=
            lookupKey_setKey_ne round r _ hr b.moves
          simp only [movesAt, this]
          exact hnd r
    | gameEnded w =>
      simp only [BattleManager.handleMessage, hb] at hb'
      rw [Option.some_inj] at hb'
      rw [← hb']
      intro r
      exact hnd r
  · intro pid round mv now bst b hb hdup
    have hdup' : ((lookupKey round b.moves).getD []).any (fun m => m.playerId = pid) = true :=
      hdup
    simp [BattleManager.handleMessage, hb, hdup']

/-- Witness for C8: the duplicate second move of peer A in round 0 of
`c8State` is ignored. -/
theorem c8_no_duplicate_moves_witness :
    BattleManager.handleMessage "A" (BattleManager.BInMsg.submitMove 0 "paper") 9 c8State
      = (c8State, []) :=
  c8_no_duplicate_moves.2 "A" 0 "paper" 9 c8State
    { challengeId := "x", players := ["A", "B"], connections := ["A", "B"]
      moves := [(0, [{ playerId := "A", move := "rock", round := 0, submittedAt := 5 }])]
      status := BStatus.inProgress, winner := none, createdAt := 0 }
    rfl (by decide)

/-- C10: in the TypeScript `UnifiedServer`, a peer id enters the roster
`players` of an arena session only through an `update` envelope from that
peer (connecting never inserts it); a session created by the current event
has an empty roster; consequently, in the concrete run where A and B connect
and then A disconnects, the whole session is deleted although B is still
connected. -/
theorem c10_roster_only_from_update :
    (∀ (gid now : Nat) (e : UnifiedServer.AEvent) (st : ArenaState)
        (g g' : GameSession) (p : String), st.game = some g →
        (UnifiedServer.step gid now e st).1.game = some g' →
        p ∈ g'.players.map Prod.fst → p ∉ g.players.map Prod.fst →
        isUpdateFrom e p = true)
    ∧ (∀ (gid now : Nat) (e : UnifiedServer.AEvent) (st : ArenaState)
        (g' : GameSession), st.game = none →
        (UnifiedServer.step gid now e st).1.game = some g' → g'.players = [])
    ∧ (c10Run.1.game = none ∧ c10Run.1.conns.map Prod.fst = ["B"]) := by
  refine ⟨?_, ?_, rfl, rfl⟩
  · intro gid now e st g g' p hg hg' hp hnp
    cases e with
    | connect pid =>
      have hmap : (UnifiedServer.step gid now (UnifiedServer.AEvent.connect pid) st).1.game.map
          (fun x => x.players) = st.game.map (fun x => x.players) := by
        simp [UnifiedServer.step, GameManager.addPlayer, GameManager.getOrCreateGame, hg]
      exact absurd ((players_eq_of_game_map hmap hg' hg) ▸ hp) hnp
    | disconnect pid =>
      have hg1 : ({ st with conns := eraseKey pid st.conns } : ArenaState).game = some g := hg
      exact absurd (removePlayer_keys pid _ g g' hg1 hg' p hp) hnp
    | msgHeartbeat pid =>
      have hmap : (UnifiedServer.step gid now (UnifiedServer.AEvent.msgHeartbeat pid) st).1.game.map
          (fun x => x.players) = st.game.map (fun x => x.players) := rfl
      exact absurd ((players_eq_of_game_map hmap hg' hg) ▸ hp) hnp
    | msgMarkReady pid =>
      have hmap : (UnifiedServer.step gid now (UnifiedServer.AEvent.msgMarkReady pid) st).1.game.map
          (fun x => x.players) = st.game.map (fun x => x.players) := by
        rw [show (UnifiedServer.step gid now (UnifiedServer.AEvent.msgMarkReady pid) st).1
            = UnifiedServer.checkAutoStart (MessageHandler.handleMarkReady gid pid st).1 from rfl]
        rw [checkAutoStart_game]
        simp [MessageHandler.handleMarkReady, GameManager.markPlayerReady,
              GameManager.getOrCreateGame, hg]
      exact absurd ((players_eq_of_game_map hmap hg' hg) ▸ hp) hnp
    | msgStartGame pid =>
      have hmap : (UnifiedServer.step gid now (UnifiedServer.AEvent.msgStartGame pid) st).1.game.map
          (fun x => x.players) = st.game.map (fun x => x.players) := by
        rw [show (UnifiedServer.step gid now (UnifiedServer.AEvent.msgStartGame pid) st).1
            = (MessageHandler.handleStartGame pid now st).1 from rfl]
        simp only [MessageHandler.handleStartGame]
        split
        · exact startGame_players_eq st now
        · exact startGame_players_eq st now
      exact absurd ((players_eq_of_game_map hmap hg' hg) ▸ hp) hnp
    | msgUpdate pid d =>
      have hgame : (UnifiedServer.step gid now (UnifiedServer.AEvent.msgUpdate pid d) st).1.game
          = some { g with players := setKey pid d g.players } := by
        simp [UnifiedServer.step, MessageHandler.handlePlayerUpdate,
              GameManager.updatePlayerState, hg]
      rw [hgame, Option.some_inj] at hg'
      rw [← hg'] at hp
      rcases (mem_keys_setKey p pid d g.players).mp hp with hpk | hpg
      · simp [isUpdateFrom, hpk]
      · exact absurd hpg hnp
    | msgEliminated pid =>
      have hmap : (UnifiedServer.step gid now (UnifiedServer.AEvent.msgEliminated pid) st).1.game.map
          (fun x => x.players) = st.game.map (fun x => x.players) :=
        handleEliminated_players_eq pid st
      exact absurd ((players_eq_of_game_map hmap hg' hg) ▸ hp) hnp
    | msgWinner wid =>
      have hmap : (UnifiedServer.step gid now (UnifiedServer.AEvent.msgWinner wid) st).1.game.map
          (fun x => x.players) = st.game.map (fun x => x.players) :=
        declareWinner_players_eq wid st
      exact absurd ((players_eq_of_game_map hmap hg' hg) ▸ hp) hnp
    | msgSetDeadline deadline =>
      have hmap : (UnifiedServer.step gid now (UnifiedServer.AEvent.msgSetDeadline deadline) st).1.game.map
          (fun x => x.players) = st.game.map (fun x => x.players) := by
        rw [show (UnifiedServer.step gid now (UnifiedServer.AEvent.msgSetDeadline deadline) st).1
            = UnifiedServer.startDeadlineMonitor deadline now st from rfl]
        simp only [UnifiedServer.startDeadlineMonitor]
        split
        · rw [checkAutoStart_game]
        · rfl
      exact absurd ((players_eq_of_game_map hmap hg' hg) ▸ hp) hnp
    | countdownFire =>
      have hmap : (UnifiedServer.step gid now UnifiedServer.AEvent.countdownFire st).1.game.map
          (fun x => x.players) = st.game.map (fun x => x.players) := by
        simp only [UnifiedServer.step]
        split
        · exact transitionToActive_players_eq { st with countdownTimerArmed := false } now
        · rfl
      exact absurd ((players_eq_of_game_map hmap hg' hg) ▸ hp) hnp
    | autoStartFire =>
      have hmap : (UnifiedServer.step gid now UnifiedServer.AEvent.autoStartFire st).1.game.map
          (fun x => x.players) = st.game.map (fun x => x.players) := by
        simp only [UnifiedServer.step]
        split
        · exact startGame_players_eq { st with autoStartPending := false } now
        · rfl
      exact absurd ((players_eq_of_game_map hmap hg' hg) ▸ hp) hnp
    | deadlineFire =>
      have hmap : (UnifiedServer.step gid now UnifiedServer.AEvent.deadlineFire st).1.game.map
          (fun x => x.players) = st.game.map (fun x => x.players) := by
        simp only [UnifiedServer.step]
        split
        · rw [checkAutoStart_game]
        · rfl
      exact absurd ((players_eq_of_game_map hmap hg' hg) ▸ hp) hnp
  · intro gid now e st g' hn hg'
    cases e with
    | connect pid =>
      have : (UnifiedServer.step gid now (UnifiedServer.AEvent.connect pid) st).1.game
          = some (freshGame gid) := by
        simp [UnifiedServer.step, GameManager.addPlayer, GameManager.getOrCreateGame, hn]
      rw [this, Option.some_inj] at hg'
      rw [← hg']
      rfl
    | disconnect pid =>
      have : (UnifiedServer.step gid now (UnifiedServer.AEvent.disconnect pid) st).1.game = none := by
        simp [UnifiedServer.step, GameManager.removePlayer, hn]
      rw [this] at hg'
      exact absurd hg' (by simp)
    | msgHeartbeat pid =>
      rw [show (UnifiedServer.step gid now (UnifiedServer.AEvent.msgHeartbeat pid) st).1.game
          = st.game from rfl, hn] at hg'
      exact absurd hg' (by simp)
    | msgMarkReady pid =>
      have : (UnifiedServer.step gid now (UnifiedServer.AEvent.msgMarkReady pid) st).1.game
          = some { freshGame gid with readyPlayers := addMem pid (freshGame gid).readyPlayers } := by
        rw [show (UnifiedServer.step gid now (UnifiedServer.AEvent.msgMarkReady pid) st).1
            = UnifiedServer.checkAutoStart (MessageHandler.handleMarkReady gid pid st).1 from rfl]
        rw [checkAutoStart_game]
        simp [MessageHandler.handleMarkReady, GameManager.markPlayerReady,
              GameManager.getOrCreateGame, hn]
      rw [this, Option.some_inj] at hg'
      rw [← hg']
      rfl
    | msgStartGame pid =>
      have : (UnifiedServer.step gid now (UnifiedServer.AEvent.msgStartGame pid) st).1.game
          = none := by
        rw [show (UnifiedServer.step gid now (UnifiedServer.AEvent.msgStartGame pid) st).1
            = (MessageHandler.handleStartGame pid now st).1 from rfl]
        simp [MessageHandler.handleStartGame, GameManager.startGame, hn]
      rw [this] at hg'
      exact absurd hg' (by simp)
    | msgUpdate pid d =>
      have : (UnifiedServer.step gid now (UnifiedServer.AEvent.msgUpdate pid d) st).1.game
          = none := by
        simp [UnifiedServer.step, MessageHandler.handlePlayerUpdate,
              GameManager.updatePlayerState, hn]
      rw [this] at hg'
      exact absurd hg' (by simp)
    | msgEliminated pid =>
      have : (UnifiedServer.step gid now (UnifiedServer.AEvent.msgEliminated pid) st).1.game
          = none := by
        have := handleEliminated_players_eq pid st
        rw [show (UnifiedServer.step gid now (UnifiedServer.AEvent.msgEliminated pid) st).1
            = (MessageHandler.handleEliminated pid st).1 from rfl]
        rcases hopt : (MessageHandler.handleEliminated pid st).1.game with _ | gg
        · rfl
        · rw [hopt, hn] at this
          simp at this
      rw [this] at hg'
      exact absurd hg' (by simp)
    | msgWinner wid =>
      have : (UnifiedServer.step gid now (UnifiedServer.AEvent.msgWinner wid) st).1.game
          = none := by
        simp [UnifiedServer.step, MessageHandler.handleWinner, GameManager.declareWinner, hn]
      rw [this] at hg'
      exact absurd hg' (by simp)
    | msgSetDeadline deadline =>
      have : (UnifiedServer.step gid now (UnifiedServer.AEvent.msgSetDeadline deadline) st).1.game
          = none := by
        rw [show (UnifiedServer.step gid now (UnifiedServer.AEvent.msgSetDeadline deadline) st).1
            = UnifiedServer.startDeadlineMonitor deadline now st from rfl]
        simp only [UnifiedServer.startDeadlineMonitor]
        split
        · rw [checkAutoStart_game]
          exact hn
        · exact hn
      rw [this] at hg'
      exact absurd hg' (by simp)
    | countdownFire =>
      have : (UnifiedServer.step gid now UnifiedServer.AEvent.countdownFire st).1.game = none := by
        simp only [UnifiedServer.step]
        split
        · simp [GameManager.transitionToActive, hn]
        · exact hn
      rw [this] at hg'
      exact absurd hg' (by simp)
    | autoStartFire =>
      have : (UnifiedServer.step gid now UnifiedServer.AEvent.autoStartFire st).1.game = none := by
        simp only [UnifiedServer.step]
        split
        · simp [GameManager.startGame, hn]
        · exact hn
      rw [this] at hg'
      exact absurd hg' (by simp)
    | deadlineFire =>
      have : (UnifiedServer.step gid now UnifiedServer.AEvent.deadlineFire st).1.game = none := by
        simp only [UnifiedServer.step]
        split
        · rw [checkAutoStart_game]
          exact hn
        · exact hn
      rw [this] at hg'
      exact absurd hg' (by simp)

/-- Witness for C10: the `update` envelope from A on a roster not containing
A is the event that inserts A. -/
theorem c10_roster_only_from_update_witness :
    isUpdateFrom (UnifiedServer.AEvent.msgUpdate "A" psAlice) "A" = true :=
  c10_roster_only_from_update.1 7 0 (UnifiedServer.AEvent.msgUpdate "A" psAlice) c5State
    (freshGame 7) { freshGame 7 with players := [("A", psAlice)] } "A"
    rfl rfl (by decide) (by decide)

/-- C7: under the countdown-timer invariant (armed implies the session is in
Countdown), every event of the UnifiedServer — message, connect/disconnect,
or timer firing — preserves the invariant and moves `phase` only forward in
the order waiting < countdown < active < ended; moreover once the phase is
Ended the countdown timer cannot be armed, so the countdown-fire event is a
no-op (declaring a winner cancelled the timer). -/
theorem c7_phase_monotone :
    (∀ (gid now : Nat) (e : UnifiedServer.AEvent) (st : ArenaState), ArenaInv st →
        ArenaInv (UnifiedServer.step gid now e st).1
        ∧ (∀ g g', st.game = some g →
            (UnifiedServer.step gid now e st).1.game = some g' → g.phase.idx ≤ g'.phase.idx))
    ∧ (∀ (gid now : Nat) (st : ArenaState) (g : GameSession), ArenaInv st →
        st.game = some g → g.phase = Phase.ended →
        UnifiedServer.step gid now UnifiedServer.AEvent.countdownFire st = (st, [])) := by
  constructor
  · intro gid now e st hinv
    cases e with
    | connect pid =>
      have hgame : (UnifiedServer.step gid now (UnifiedServer.AEvent.connect pid) st).1.game
          = some (GameManager.getOrCreateGame gid st.game) := rfl
      constructor
      · intro h
        rcases hinv h with ⟨g2, hg2, hph2⟩
        refine ⟨g2, ?_, hph2⟩
        rw [hgame, hg2]
        simp [GameManager.getOrCreateGame]
      · intro g g' h0 h0'
        rw [hgame, h0] at h0'
        simp only [GameManager.getOrCreateGame, Option.getD_some, Option.some_inj] at h0'
        rw [h0']
    | disconnect pid =>
      have hstep : (UnifiedServer.step gid now (UnifiedServer.AEvent.disconnect pid) st).1
          = GameManager.removePlayer pid { st with conns := eraseKey pid st.conns } := rfl
      rw [hstep]
      have h := removePlayer_inv_mono pid { st with conns := eraseKey pid st.conns } hinv
      exact ⟨h.1, fun g g' h0 h0' => h.2 g g' h0 h0'⟩
    | msgHeartbeat pid =>
      exact inv_mono_of_phase_frame st _ hinv rfl rfl
    | msgMarkReady pid =>
      have hstep : (UnifiedServer.step gid now (UnifiedServer.AEvent.msgMarkReady pid) st).1
          = UnifiedServer.checkAutoStart (MessageHandler.handleMarkReady gid pid st).1 := rfl
      rw [hstep]
      by_cases hn : st.game = none
      · constructor
        · intro h
          rw [checkAutoStart_armed] at h
          rcases hinv h with ⟨g2, hg2, _⟩
          rw [hn] at hg2
          exact nomatch hg2
        · intro g0 g0' h0 _
          rw [hn] at h0
          exact nomatch h0
      · obtain ⟨g, hg⟩ := Option.ne_none_iff_exists'.mp hn
        refine inv_mono_of_phase_frame st _ hinv ?_ ?_
        · rw [checkAutoStart_armed]
          rfl
        · rw [checkAutoStart_game]
          simp [MessageHandler.handleMarkReady, GameManager.markPlayerReady,
                GameManager.getOrCreateGame, hg]
    | msgStartGame pid =>
      rw [show (UnifiedServer.step gid now (UnifiedServer.AEvent.msgStartGame pid) st).1
          = (MessageHandler.handleStartGame pid now st).1 from rfl, handleStartGame_fst]
      exact startGame_inv_mono st now hinv
    | msgUpdate pid d =>
      refine inv_mono_of_phase_frame st _ hinv ?_ ?_
      · rfl
      · rcases hg : st.game with _ | g <;>
          simp [UnifiedServer.step, MessageHandler.handlePlayerUpdate,
                GameManager.updatePlayerState, hg]
    | msgEliminated pid =>
      rcases handleEliminated_fst_cases pid st with hcase | ⟨w, hcase⟩
      · rw [show (UnifiedServer.step gid now (UnifiedServer.AEvent.msgEliminated pid) st).1
            = (MessageHandler.handleEliminated pid st).1 from rfl, hcase]
        exact ⟨hinv, mono_le_refl st⟩
      · rw [show (UnifiedServer.step gid now (UnifiedServer.AEvent.msgEliminated pid) st).1
            = (MessageHandler.handleEliminated pid st).1 from rfl, hcase]
        exact declareWinner_inv_mono w st hinv
    | msgWinner wid =>
      rw [show (UnifiedServer.step gid now (UnifiedServer.AEvent.msgWinner wid) st).1
          = GameManager.declareWinner wid st from rfl]
      exact declareWinner_inv_mono wid st hinv
    | msgSetDeadline deadline =>
      apply inv_mono_of_phase_frame st _ hinv
      · exact startDeadlineMonitor_armed deadline now st
      · exact congrArg (Option.map (fun g => g.phase)) (startDeadlineMonitor_game deadline now st)
    | countdownFire =>
      have hstep : (UnifiedServer.step gid now UnifiedServer.AEvent.countdownFire st).1
          = if st.countdownTimerArmed = true then
              (GameManager.transitionToActive { st with countdownTimerArmed := false } now).1
            else st := by
        simp only [UnifiedServer.step]
        split <;> rfl
      rw [hstep]
      by_cases harm : st.countdownTimerArmed = true
      · rw [if_pos harm]
        rcases hinv harm with ⟨g2, hg2, hph2⟩
        have hg2' : ({ st with countdownTimerArmed := false } : ArenaState).game = some g2 := hg2
        have hfire := transitionToActive_fst { st with countdownTimerArmed := false } now g2 hg2'
        rw [hfire]
        constructor
        · intro h
          exact nomatch h
        · intro g0 g0' h0 h0'
          have hg02 : g0 = g2 := by
            rw [hg2] at h0
            exact (Option.some_inj.mp h0).symm
          have h3 := Option.some_inj.mp h0'
          rw [← h3, hg02, hph2]
          exact Nat.le_succ 1
      · rw [if_neg harm]
        exact ⟨hinv, mono_le_refl st⟩
    | autoStartFire =>
      have hstep : (UnifiedServer.step gid now UnifiedServer.AEvent.autoStartFire st).1
          = if st.autoStartPending = true then
              (GameManager.startGame { st with autoStartPending := false } now).1
            else st := by
        simp only [UnifiedServer.step]
        split <;> rfl
      rw [hstep]
      by_cases hp : st.autoStartPending = true
      · rw [if_pos hp]
        have h := startGame_inv_mono { st with autoStartPending := false } now hinv
        exact ⟨h.1, fun g g' h0 h0' => h.2 g g' h0 h0'⟩
      · rw [if_neg hp]
        exact ⟨hinv, mono_le_refl st⟩
    | deadlineFire =>
      have hstep : (UnifiedServer.step gid now UnifiedServer.AEvent.deadlineFire st).1
          = if st.deadlineTimerArmed = true then
              UnifiedServer.checkAutoStart { st with deadlineTimerArmed := false }
            else st := by
        simp only [UnifiedServer.step]
        split <;> rfl
      rw [hstep]
      by_cases hd : st.deadlineTimerArmed = true
      · rw [if_pos hd]
        refine inv_mono_of_phase_frame st _ hinv ?_ ?_
        · rw [checkAutoStart_armed]
        · rw [checkAutoStart_game]
      · rw [if_neg hd]
        exact ⟨hinv, mono_le_refl st⟩
  · intro gid now st g hinv hg hph
    have harm : st.countdownTimerArmed = false := by
      cases hx : st.countdownTimerArmed
      · rfl
      · rcases hinv hx with ⟨g2, hg2, hph2⟩
        rw [hg, Option.some_inj] at hg2
        rw [← hg2, hph] at hph2
        exact absurd hph2 (by decide)
    simp [UnifiedServer.step, harm]

/-- Witness for C7: a heartbeat step on a concrete waiting room keeps the
phase index in place, and the countdown invariant at the initial state. -/
theorem c7_phase_monotone_witness :
    Phase.idx (freshGame 7).phase ≤ Phase.idx (freshGame 7).phase :=
  (c7_phase_monotone.1 7 0 (UnifiedServer.AEvent.msgHeartbeat "P") c5State
    (fun h => nomatch h)).2 (freshGame 7) (freshGame 7) rfl rfl

end PurgeServer
